import Mathlib

set_option autoImplicit false

/-!
Shallow embedding of the dashboard JSON traversal and diff engine from
pkg/query-service/app/dashboards/model.go, together with proofs of the
spec claims about it.

Go values of static type interface holding JSON-decoded data are modelled
by the inductive type GoValue.  A Go map from string to interface is an
association list of string keys and GoValue values; a Go map from string
to string is a separate constructor, because the Go code distinguishes the
two by runtime type assertion.  A failing type assertion is an Option
returning none; a nil interface is the null constructor (reading an absent
key from a Go map yields nil, which is indistinguishable from a stored nil
for every operation the code performs).
-/

inductive GoValue where
  | null : GoValue
  | str : String → GoValue
  | num : Int → GoValue
  | bool : Bool → GoValue
  | arr : List GoValue → GoValue
  | obj : List (String × GoValue) → GoValue
  | strMap : List (String × String) → GoValue

/-- A Go map from string to interface, as produced by json.Unmarshal. -/
abbrev GoObj := List (String × GoValue)

/-- Reading a key from a Go map: the stored value, or nil when absent. -/
def GoObj.get (m : GoObj) (k : String) : GoValue :=
  (m.lookup k).getD GoValue.null

/-- Type assertion to a Go map from string to interface. -/
def GoValue.asObj : GoValue → Option GoObj
  | .obj fs => some fs
  | _ => none

/-- Type assertion to a Go slice of interface. -/
def GoValue.asArr : GoValue → Option (List GoValue)
  | .arr es => some es
  | _ => none

/-- Type assertion to a Go string. -/
def GoValue.asStr : GoValue → Option String
  | .str s => some s
  | _ => none

/-- Type assertion to a Go map from string to string. -/
def GoValue.asStrMap : GoValue → Option (List (String × String))
  | .strMap fs => some fs
  | _ => none

/-- The Go comparison of an interface value against nil: true when the
value is not nil. -/
def GoValue.isNotNil : GoValue → Bool
  | .null => false
  | _ => true

/-- The loop of getIdDifference: difference is the accumulated output,
differenceMap marks ids already emitted, newIds is the membership map
built from the second argument. -/
def getIdDifferenceGo (newIds : List String) :
    List String → List String → List String → List String
  | [], difference, _ => difference
  | id :: rest, difference, differenceMap =>
    if id ∉ newIds ∧ id ∉ differenceMap then
      getIdDifferenceGo newIds rest (difference ++ [id]) (differenceMap ++ [id])
    else
      getIdDifferenceGo newIds rest difference differenceMap

/-- getIdDifference from model.go lines 303-326. -/
def getIdDifference (existingIds newIds : List String) : List String :=
  getIdDifferenceGo newIds existingIds [] []

/-- The body of the widget loop of getWidgetIds (model.go lines
286-296). -/
def widgetIdStep (widgetIds : List String) (widget : GoValue) : List String :=
  match widget.asObj with
  | some sData =>
    if (GoObj.get sData "query").isNotNil && (GoObj.get sData "id").isNotNil then
      match (GoObj.get sData "id").asStr with
      | some id => widgetIds ++ [id]
      | none => widgetIds
    else widgetIds
  | none => widgetIds

/-- getWidgetIds from model.go lines 279-301. -/
def getWidgetIds (data : GoObj) : List String :=
  if (GoObj.get data "widgets").isNotNil then
    match (GoObj.get data "widgets").asArr with
    | some ws => ws.foldl widgetIdStep []
    | none => []
  else []

/-- Spec-side description of first-seen deduplication: keep the first
occurrence of each element, drop later repeats. -/
def dedupFirst : List String → List String
  | [] => []
  | a :: l => a :: dedupFirst (l.filter (fun x => x ≠ a))
termination_by l => l.length
decreasing_by
  simp only [List.length_cons]
  exact Nat.lt_succ_of_le (List.length_filter_le _ _)

/-- Spec-side recursion mirroring the getIdDifference loop with an
explicit already-seen accumulator. -/
def dedupFirstFrom (newIds : List String) : List String → List String → List String
  | _, [] => []
  | seen, a :: l =>
    if a ∉ newIds ∧ a ∉ seen then a :: dedupFirstFrom newIds (seen ++ [a]) l
    else dedupFirstFrom newIds seen l

/-- isDashboardWithPanelAndName from model.go lines 422-440. -/
def isDashboardWithPanelAndName (data : GoObj) : Bool :=
  if (GoObj.get data "title").isNotNil && (GoObj.get data "widgets").isNotNil then
    let isDashboardName :=
      match (GoObj.get data "title").asStr with
      | some title => title != "Sample Title"
      | none => false
    if isDashboardName then
      match (GoObj.get data "widgets").asArr with
      | some ws => decide (0 < ws.length)
      | none => false
    else false
  else false

/-- Modelled from the spec: the model package's ApiError classification is
not under src; the spec distinguishes policy-violation (bad-request)
rejections from persistence errors (exec and not-found faults from the
storage layer). -/
inductive ErrorTyp where
  | errorExec
  | errorNotFound
  | errorBadData
deriving DecidableEq

/-- An ApiError pairs a classification with a message. -/
structure ApiError where
  typ : ErrorTyp
  errMsg : String
deriving DecidableEq

/-- Modelled from the spec: model.BadRequest wraps a message as a
bad-request (bad-data) ApiError, the user-facing policy-violation
rejection, distinct from persistence errors. -/
def badRequest (msg : String) : ApiError :=
  { typ := ErrorTyp.errorBadData, errMsg := msg }

/-- Outcome of the update path: either a rejection with an ApiError and no
write, or a write of the new document to the store. -/
inductive UpdateOutcome where
  | rejected (e : ApiError)
  | written (data : GoObj)

/-- The widget-deletion policy segment of UpdateDashboard (model.go lines
201-217): after the dashboard has been fetched and the lock check has
passed, compute the id difference between the stored and the new document
and either reject with a bad-request error performing no write, or perform
the write of the new data. -/
def updateDashboardPolicy (storedData newData : GoObj) : UpdateOutcome :=
  let existingIds := getWidgetIds storedData
  let newIds := getWidgetIds newData
  let differenceIds := getIdDifference existingIds newIds
  if differenceIds.length > 1 then
    UpdateOutcome.rejected (badRequest "deleting more than one panel is not supported")
  else
    UpdateOutcome.written newData

/-- A widget carrying an id and a (trivial) query, used as concrete input. -/
def widgetWithId (id : String) : GoValue :=
  GoValue.obj [("id", GoValue.str id), ("query", GoValue.obj [])]

/-- Concrete stored document with three widgets. -/
def storedC3 : GoObj :=
  [("widgets", GoValue.arr [widgetWithId "w1", widgetWithId "w2", widgetWithId "w3"])]

/-- Concrete new document keeping only the first widget. -/
def newC3 : GoObj :=
  [("widgets", GoValue.arr [widgetWithId "w1"])]

/-- Concrete document with an empty-string title and one widget. -/
def dataC5 : GoObj :=
  [("title", GoValue.str ""), ("widgets", GoValue.arr [GoValue.null])]

/-- Whether the first character list is a prefix of the second. -/
def charsStartWith : List Char → List Char → Bool
  | [], _ => true
  | _ :: _, [] => false
  | a :: as, b :: bs => a == b && charsStartWith as bs

/-- Whether the second character list occurs contiguously in the first. -/
def charsContain : List Char → List Char → Bool
  | [], pat => pat.isEmpty
  | hay@(_ :: rest), pat => charsStartWith pat hay || charsContain rest pat

/-- strings.Contains from the Go standard library. -/
def goStringContains (s sub : String) : Bool :=
  charsContain s.data sub.data

/-- Lower-case hexadecimal digit for values below sixteen. -/
def hexDigit (n : Nat) : Char :=
  if n < 10 then Char.ofNat (48 + n) else Char.ofNat (87 + n)

/-- Escape one character the way encoding/json does with its default
HTML-escaping encoder. -/
def jsonEscapeChar (c : Char) : String :=
  if c = '"' then "\\\""
  else if c = '\\' then "\\\\"
  else if c = '\n' then "\\n"
  else if c = '\r' then "\\r"
  else if c = '\t' then "\\t"
  else if c = '<' then "\\u003c"
  else if c = '>' then "\\u003e"
  else if c = '&' then "\\u0026"
  else if c.toNat = 8232 then "\\u2028"
  else if c.toNat = 8233 then "\\u2029"
  else if c.toNat < 32 then
    String.mk ['\\', 'u', '0', '0', hexDigit (c.toNat / 16), hexDigit (c.toNat % 16)]
  else String.mk [c]

/-- A JSON string literal: quoted and escaped. -/
def jsonQuote (s : String) : String :=
  "\"" ++ String.join (s.data.map jsonEscapeChar) ++ "\""

/-- Insert a keyed entry into a list sorted by key, as encoding/json sorts
map keys before emitting them. -/
def insertSortedPair {α : Type} (kv : String × α) : List (String × α) → List (String × α)
  | [] => [kv]
  | kv2 :: rest =>
    if kv2.1 < kv.1 then kv2 :: insertSortedPair kv rest else kv :: kv2 :: rest

/-- Sort a keyed list by key. -/
def sortPairs {α : Type} (l : List (String × α)) : List (String × α) :=
  l.foldr insertSortedPair []

mutual

/-- json.Marshal restricted to the modelled values: maps emit their keys
in sorted order, strings are escaped by the default encoder. -/
def marshal : GoValue → String
  | .null => "null"
  | .str s => jsonQuote s
  | .num n => toString n
  | .bool b => if b then "true" else "false"
  | .arr es => "[" ++ String.intercalate "," (marshalList es) ++ "]"
  | .obj fs =>
    "\x7b" ++ String.intercalate "," ((sortPairs (marshalFields fs)).map (fun kv => kv.2)) ++ "\x7d"
  | .strMap fs =>
    "\x7b" ++ String.intercalate ","
      ((sortPairs (fs.map (fun kv => (kv.1, jsonQuote kv.1 ++ ":" ++ jsonQuote kv.2)))).map
        (fun kv => kv.2)) ++ "\x7d"

/-- Marshal every element of a Go slice. -/
def marshalList : List GoValue → List String
  | [] => []
  | e :: es => marshal e :: marshalList es

/-- Marshal every entry of a Go map, keeping the key for sorting. -/
def marshalFields : List (String × GoValue) → List (String × String)
  | [] => []
  | (k, v) :: fs => (k, jsonQuote k ++ ":" ++ marshal v) :: marshalFields fs

end

/-- isDashboardWithLogsClickhouseQuery from model.go lines 398-406. -/
def isDashboardWithLogsClickhouseQuery (data : GoObj) : Bool :=
  goStringContains (marshal (GoValue.obj data)) "signoz_logs.distributed_logs" ||
  goStringContains (marshal (GoValue.obj data)) "signoz_logs.logs"

/-- isDashboardWithTracesClickhouseQuery from model.go lines 408-420. -/
def isDashboardWithTracesClickhouseQuery (data : GoObj) : Bool :=
  goStringContains (marshal (GoValue.obj data)) "signoz_traces.distributed_signoz_index_v2" ||
  goStringContains (marshal (GoValue.obj data)) "signoz_traces.distributed_signoz_spans" ||
  goStringContains (marshal (GoValue.obj data)) "signoz_traces.distributed_signoz_error_index_v2"

/-- The body of the filter-item loop in checkLogPanelAttrContains
(model.go lines 460-474).  The key field is type-asserted to a Go map
from string to string; reading an absent key from it yields the empty
string. -/
def filterItemStep (acc : Nat) (item : GoValue) : Nat :=
  match item.asObj with
  | some itemMap =>
    match (GoObj.get itemMap "op").asStr with
    | some opStr =>
      if opStr ∈ ["contains", "ncontains", "like", "nlike"] then
        match (GoObj.get itemMap "key").asStrMap with
        | some key => if ((key.lookup "key").getD "") ≠ "body" then acc + 1 else acc
        | none => acc
      else acc
    | none => acc
  | none => acc

/-- checkLogPanelAttrContains from model.go lines 454-478. -/
def checkLogPanelAttrContains (data : GoObj) : Nat :=
  match (GoObj.get data "filters").asObj with
  | some filters =>
    if (GoObj.get filters "items").isNotNil then
      match (GoObj.get filters "items").asArr with
      | some items => items.foldl filterItemStep 0
      | none => 0
    else 0
  | none => 0

/-- The local counters of countPanelsInDashboard (model.go lines
481-483). -/
structure PanelCounts where
  logsPanelCount : Nat
  tracesPanelCount : Nat
  metricsPanelCount : Nat
  logsPanelsWithAttrContains : Nat
  traceChQueryCount : Nat
  logChQueryCount : Nat
deriving DecidableEq

/-- The body of the builder query-data loop in countPanelsInDashboard
(model.go lines 501-513). -/
def builderQueryDataStep (acc : PanelCounts) (queryData : GoValue) : PanelCounts :=
  match queryData.asObj with
  | some data =>
    if (GoObj.get data "dataSource").asStr == some "traces" then
      { acc with tracesPanelCount := acc.tracesPanelCount + 1 }
    else if (GoObj.get data "dataSource").asStr == some "metrics" then
      { acc with metricsPanelCount := acc.metricsPanelCount + 1 }
    else if (GoObj.get data "dataSource").asStr == some "logs" then
      { acc with logsPanelCount := acc.logsPanelCount + 1,
                 logsPanelsWithAttrContains :=
                   acc.logsPanelsWithAttrContains + checkLogPanelAttrContains data }
    else acc
  | none => acc

/-- The body of the widget loop in countPanelsInDashboard (model.go lines
491-525). -/
def widgetStep (inputData : GoObj) (acc : PanelCounts) (widget : GoValue) : PanelCounts :=
  match widget.asObj with
  | some sData =>
    if (GoObj.get sData "query").isNotNil then
      match (GoObj.get sData "query").asObj with
      | some query =>
        if ((GoObj.get query "queryType").asStr == some "builder") &&
            (GoObj.get query "builder").isNotNil then
          match (GoObj.get query "builder").asObj with
          | some builderData =>
            if (GoObj.get builderData "queryData").isNotNil then
              match (GoObj.get builderData "queryData").asArr with
              | some builderQueryData => builderQueryData.foldl builderQueryDataStep acc
              | none => acc
            else acc
          | none => acc
        else if ((GoObj.get query "queryType").asStr == some "clickhouse_sql") &&
            (GoObj.get query "clickhouse_sql").isNotNil then
          let acc1 :=
            if isDashboardWithLogsClickhouseQuery inputData then
              { acc with logChQueryCount := 1 }
            else acc
          if isDashboardWithTracesClickhouseQuery inputData then
            { acc1 with traceChQueryCount := 1 }
          else acc1
        else acc
      | none => acc
    else acc
  | none => acc

/-- The analytics record assembled by countPanelsInDashboard (the fields
of model.DashboardsInfo that it sets). -/
structure DashboardsInfo where
  LogsBasedPanels : Nat
  TracesBasedPanels : Nat
  MetricBasedPanels : Nat
  DashboardsWithLogsChQuery : Nat
  DashboardsWithTraceChQuery : Nat
  LogsPanelsWithAttrContainsOp : Nat
deriving DecidableEq

/-- countPanelsInDashboard from model.go lines 480-539. -/
def countPanelsInDashboard (inputData : GoObj) : DashboardsInfo :=
  let counts :=
    if (GoObj.get inputData "widgets").isNotNil then
      match (GoObj.get inputData "widgets").asArr with
      | some data => data.foldl (widgetStep inputData) ⟨0, 0, 0, 0, 0, 0⟩
      | none => (⟨0, 0, 0, 0, 0, 0⟩ : PanelCounts)
    else (⟨0, 0, 0, 0, 0, 0⟩ : PanelCounts)
  { LogsBasedPanels := counts.logsPanelCount,
    TracesBasedPanels := counts.tracesPanelCount,
    MetricBasedPanels := counts.metricsPanelCount,
    DashboardsWithLogsChQuery := counts.logChQueryCount,
    DashboardsWithTraceChQuery := counts.traceChQueryCount,
    LogsPanelsWithAttrContainsOp := counts.logsPanelsWithAttrContains }

/-- Whether a widget reaches the clickhouse branch of the widget loop:
its query is a map whose queryType is the string clickhouse_sql with a
non-nil clickhouse_sql field (such a widget always fails the builder
branch condition, since its queryType is not the string builder). -/
def isClickhouseWidget (widget : GoValue) : Bool :=
  match widget.asObj with
  | some sData =>
    if (GoObj.get sData "query").isNotNil then
      match (GoObj.get sData "query").asObj with
      | some query =>
        ((GoObj.get query "queryType").asStr == some "clickhouse_sql") &&
        (GoObj.get query "clickhouse_sql").isNotNil
      | none => false
    else false
  | none => false

/-- Whether some widget of the document reaches the clickhouse branch. -/
def hasClickhouseWidget (inputData : GoObj) : Bool :=
  if (GoObj.get inputData "widgets").isNotNil then
    match (GoObj.get inputData "widgets").asArr with
    | some ws => ws.any isClickhouseWidget
    | none => false
  else false

mutual

/-- Whether a value can be produced by json.Unmarshal into an interface:
every Go map inside it maps string to interface, never string to string. -/
def jsonPure : GoValue → Bool
  | .null => true
  | .str _ => true
  | .num _ => true
  | .bool _ => true
  | .arr es => jsonPureList es
  | .obj fs => jsonPureFields fs
  | .strMap _ => false

/-- jsonPure on every element of a slice. -/
def jsonPureList : List GoValue → Bool
  | [] => true
  | e :: es => jsonPure e && jsonPureList es

/-- jsonPure on every value of a map. -/
def jsonPureFields : List (String × GoValue) → Bool
  | [] => true
  | kv :: fs => jsonPure kv.2 && jsonPureFields fs

end

/-- The spec's example filter item: a contains operator on the key
message. -/
def filterItemC1 : GoValue :=
  GoValue.obj [("op", GoValue.str "contains"),
               ("key", GoValue.obj [("key", GoValue.str "message")])]

/-- The filters map of the spec's example logs query item. -/
def filtersC1 : GoObj :=
  [("filters", GoValue.obj [("items", GoValue.arr [filterItemC1])])]

/-- The spec's example logs builder query item. -/
def logsQueryItemC1 : GoValue :=
  GoValue.obj (("dataSource", GoValue.str "logs") :: filtersC1)

/-- The spec's example document: one builder widget with a single logs
query item carrying one contains filter on the key message. -/
def docC1 : GoObj :=
  [("widgets", GoValue.arr [GoValue.obj [
      ("id", GoValue.str "w1"),
      ("query", GoValue.obj [
        ("queryType", GoValue.str "builder"),
        ("builder", GoValue.obj [("queryData", GoValue.arr [logsQueryItemC1])])])]])]

/-- A document carrying the raw-logs fingerprint in its title but having
no widget at all. -/
def docC2 : GoObj :=
  [("title", GoValue.str "signoz_logs.logs")]

/-- A document whose widgets field is a string rather than an array. -/
def dataC7 : GoObj :=
  [("widgets", GoValue.str "oops")]

/-- The id a single widget contributes to getWidgetIds: present exactly
when the widget is a map with non-nil query and id and a string id. -/
def widgetIdOf (widget : GoValue) : Option String :=
  match widget.asObj with
  | some sData =>
    if (GoObj.get sData "query").isNotNil && (GoObj.get sData "id").isNotNil then
      (GoObj.get sData "id").asStr
    else none
  | none => none

/-- unicode.IsSpace from the Go standard library: the white-space code
points (Latin-1 plus the Unicode White_Space class). -/
def isGoSpace (c : Char) : Bool :=
  c = ' ' || c = '\t' || c = '\n' || c.toNat = 11 || c.toNat = 12 || c = '\r' ||
  c.toNat = 133 || c.toNat = 160 || c.toNat = 5760 ||
  (8192 ≤ c.toNat && c.toNat ≤ 8202) || c.toNat = 8232 || c.toNat = 8233 ||
  c.toNat = 8239 || c.toNat = 8287 || c.toNat = 12288

/-- strings.TrimSpace from the Go standard library: drop leading and
trailing white space. -/
def stringsTrimSpace (s : String) : String :=
  String.mk (((s.data.dropWhile isGoSpace).reverse.dropWhile isGoSpace).reverse)

/-- The four-entry Go map from string to string appended by
GetDashboardsWithMetricNames for each matching query item. -/
structure UsageRecord where
  dashboard_id : String
  widget_title : String
  widget_id : String
  dashboard_title : String
deriving DecidableEq

/-- The result map of GetDashboardsWithMetricNames: metric name to its
list of usage records. -/
abbrev MetricUsageIndex := List (String × List UsageRecord)

/-- Appending to a key of a Go map of slices: extend the entry in place,
or create it on first append. -/
def insAppend (result : MetricUsageIndex) (k : String) (v : UsageRecord) : MetricUsageIndex :=
  match result with
  | [] => [(k, [v])]
  | (k2, vs) :: rest =>
    if k2 = k then (k2, vs ++ [v]) :: rest else (k2, vs) :: insAppend rest k v

/-- A row of the dashboards table: uuid and data.  The data is the parsed
value; a value that is not a map stands for a row whose blob does not
unmarshal into a Go map and is skipped. -/
structure DashboardRow where
  uuid : String
  data : GoValue

/-- A Go type assertion to string whose failure flag is discarded: the
string value, or the zero value on mismatch. -/
def stringOrEmpty (v : GoValue) : String :=
  match v.asStr with
  | some s => s
  | none => ""

/-- The record appended for a match: dashboard uuid and title, widget id
and title (model.go lines 619-624). -/
def mkUsageRecord (uuid widgetTitle widgetID dashTitle : String) : UsageRecord :=
  { dashboard_id := uuid, widget_title := widgetTitle,
    widget_id := widgetID, dashboard_title := dashTitle }

/-- The body of the metric-name loop of GetDashboardsWithMetricNames
(model.go lines 617-626). -/
def metricNameStep (uuid widgetTitle widgetID dashTitle key : String)
    (result : MetricUsageIndex) (metricName : String) : MetricUsageIndex :=
  if stringsTrimSpace key = metricName then
    insAppend result metricName (mkUsageRecord uuid widgetTitle widgetID dashTitle)
  else result

/-- The metric-name loop of GetDashboardsWithMetricNames. -/
def metricNamesLoop (metricNames : List String) (uuid widgetTitle widgetID dashTitle key : String)
    (result : MetricUsageIndex) : MetricUsageIndex :=
  metricNames.foldl (metricNameStep uuid widgetTitle widgetID dashTitle key) result

/-- The body of the query-data loop of GetDashboardsWithMetricNames
(model.go lines 600-628). -/
def queryDataStep (metricNames : List String) (uuid dashTitle widgetTitle widgetID : String)
    (result : MetricUsageIndex) (qd : GoValue) : MetricUsageIndex :=
  match qd.asObj with
  | none => result
  | some data =>
    if (GoObj.get data "dataSource").asStr ≠ some "metrics" then result
    else
      match (GoObj.get data "aggregateAttribute").asObj with
      | none => result
      | some aggregateAttr =>
        match (GoObj.get aggregateAttr "key").asStr with
        | none => result
        | some key =>
          metricNamesLoop metricNames uuid widgetTitle widgetID dashTitle key result

/-- The query-data loop of GetDashboardsWithMetricNames. -/
def queryDataLoop (metricNames : List String) (uuid dashTitle widgetTitle widgetID : String)
    (queryData : List GoValue) (result : MetricUsageIndex) : MetricUsageIndex :=
  queryData.foldl (queryDataStep metricNames uuid dashTitle widgetTitle widgetID) result

/-- The body of the widget loop of GetDashboardsWithMetricNames (model.go
lines 576-629). -/
def widgetMetricStep (metricNames : List String) (uuid dashTitle : String)
    (result : MetricUsageIndex) (w : GoValue) : MetricUsageIndex :=
  match w.asObj with
  | none => result
  | some widget =>
    match (GoObj.get widget "query").asObj with
    | none => result
    | some query =>
      match (GoObj.get query "builder").asObj with
      | none => result
      | some builder =>
        match (GoObj.get builder "queryData").asArr with
        | none => result
        | some queryData =>
          queryDataLoop metricNames uuid dashTitle
            (stringOrEmpty (GoObj.get widget "title"))
            (stringOrEmpty (GoObj.get widget "id")) queryData result

/-- The widget loop of GetDashboardsWithMetricNames. -/
def widgetsMetricLoop (metricNames : List String) (uuid dashTitle : String)
    (widgets : List GoValue) (result : MetricUsageIndex) : MetricUsageIndex :=
  widgets.foldl (widgetMetricStep metricNames uuid dashTitle) result

/-- The body of the dashboard loop of GetDashboardsWithMetricNames
(model.go lines 564-630). -/
def dashboardStep (metricNames : List String) (result : MetricUsageIndex)
    (dashboard : DashboardRow) : MetricUsageIndex :=
  match dashboard.data.asObj with
  | none => result
  | some dashData =>
    match (GoObj.get dashData "widgets").asArr with
    | none => result
    | some widgets =>
      widgetsMetricLoop metricNames dashboard.uuid
        (stringOrEmpty (GoObj.get dashData "title")) widgets result

/-- GetDashboardsWithMetricNames from model.go lines 541-633, applied to
an in-memory collection of rows. -/
def GetDashboardsWithMetricNames (dashboards : List DashboardRow) (metricNames : List String) :
    MetricUsageIndex :=
  dashboards.foldl (dashboardStep metricNames) []

/-- Folding a list of emissions into the result map. -/
def insAppendAll (E : List (String × UsageRecord)) (acc : MetricUsageIndex) : MetricUsageIndex :=
  E.foldl (fun result p => insAppend result p.1 p.2) acc

/-- The pairs of metric name and record that the metric-name loop appends,
in order. -/
def metricNameEmissions (metricNames : List String) (rec : UsageRecord) (key : String) :
    List (String × UsageRecord) :=
  metricNames.filterMap (fun m => if stringsTrimSpace key = m then some (m, rec) else none)

/-- The pairs of metric name and record one query item emits. -/
def qdEmissions (metricNames : List String) (uuid dashTitle widgetTitle widgetID : String)
    (qd : GoValue) : List (String × UsageRecord) :=
  match qd.asObj with
  | none => []
  | some data =>
    if (GoObj.get data "dataSource").asStr ≠ some "metrics" then []
    else
      match (GoObj.get data "aggregateAttribute").asObj with
      | none => []
      | some aggregateAttr =>
        match (GoObj.get aggregateAttr "key").asStr with
        | none => []
        | some key =>
          metricNameEmissions metricNames (mkUsageRecord uuid widgetTitle widgetID dashTitle) key

/-- The pairs of metric name and record one widget emits. -/
def widgetEmissions (metricNames : List String) (uuid dashTitle : String) (w : GoValue) :
    List (String × UsageRecord) :=
  match w with
  | GoValue.obj widget =>
    match GoObj.get widget "query" with
    | GoValue.obj query =>
      match GoObj.get query "builder" with
      | GoValue.obj builder =>
        match GoObj.get builder "queryData" with
        | GoValue.arr queryData =>
          queryData.flatMap (qdEmissions metricNames uuid dashTitle
            (stringOrEmpty (GoObj.get widget "title"))
            (stringOrEmpty (GoObj.get widget "id")))
        | _ => []
      | _ => []
    | _ => []
  | _ => []

/-- The pairs of metric name and record one row emits. -/
def rowEmissions (metricNames : List String) (row : DashboardRow) :
    List (String × UsageRecord) :=
  match row.data with
  | GoValue.obj dashData =>
    match GoObj.get dashData "widgets" with
    | GoValue.arr widgets =>
      widgets.flatMap
        (widgetEmissions metricNames row.uuid (stringOrEmpty (GoObj.get dashData "title")))
    | _ => []
  | _ => []

/-- Every pair of metric name and record the whole collection emits. -/
def allEmissions (dashboards : List DashboardRow) (metricNames : List String) :
    List (String × UsageRecord) :=
  dashboards.flatMap (rowEmissions metricNames)

/-- The structural condition under which a query item matches the metric
name m: it is a map whose dataSource is the string metrics and whose
aggregateAttribute key, after trimming white space, equals m, with m among
the requested names. -/
def qdWitness (metricNames : List String) (m : String) (qd : GoValue) : Prop :=
  ∃ data, qd = GoValue.obj data ∧
    GoObj.get data "dataSource" = GoValue.str "metrics" ∧
    ∃ aggregateAttr, GoObj.get data "aggregateAttribute" = GoValue.obj aggregateAttr ∧
      ∃ key, GoObj.get aggregateAttr "key" = GoValue.str key ∧
        stringsTrimSpace key = m ∧ m ∈ metricNames

/-- The structural condition under which a widget yields the record r for
metric name m. -/
def widgetWitness (metricNames : List String) (uuid dashTitle m : String)
    (r : UsageRecord) (w : GoValue) : Prop :=
  ∃ widget, w = GoValue.obj widget ∧
    (∃ query, GoObj.get widget "query" = GoValue.obj query ∧
      ∃ builder, GoObj.get query "builder" = GoValue.obj builder ∧
        ∃ queryData, GoObj.get builder "queryData" = GoValue.arr queryData ∧
          ∃ qd ∈ queryData, qdWitness metricNames m qd) ∧
    r = mkUsageRecord uuid (stringOrEmpty (GoObj.get widget "title"))
          (stringOrEmpty (GoObj.get widget "id")) dashTitle

/-- The structural condition under which a row yields the record r for
metric name m. -/
def usageWitness (metricNames : List String) (row : DashboardRow) (m : String)
    (r : UsageRecord) : Prop :=
  ∃ dashData, row.data = GoValue.obj dashData ∧
    ∃ widgets, GoObj.get dashData "widgets" = GoValue.arr widgets ∧
      ∃ w ∈ widgets,
        widgetWitness metricNames row.uuid (stringOrEmpty (GoObj.get dashData "title")) m r w

/-- Concrete row: one metrics builder item whose key carries surrounding
white space. -/
def rowC6 : DashboardRow :=
  { uuid := "uuid-1",
    data := GoValue.obj
      [("title", GoValue.str "dash"),
       ("widgets", GoValue.arr [GoValue.obj
         [("id", GoValue.str "w1"), ("title", GoValue.str "widget one"),
          ("query", GoValue.obj
            [("builder", GoValue.obj
              [("queryData", GoValue.arr [GoValue.obj
                [("dataSource", GoValue.str "metrics"),
                 ("aggregateAttribute", GoValue.obj
                   [("key", GoValue.str " cpu_usage ")])]])])])]])] }

/-- The usage record rowC6 produces. -/
def recC6 : UsageRecord :=
  { dashboard_id := "uuid-1", widget_title := "widget one",
    widget_id := "w1", dashboard_title := "dash" }

/-- A builder query map with one metrics item and an arbitrary optional
queryType field. -/
def queryObjWithType (qt : Option GoValue) : GoObj :=
  (match qt with
   | some v => [("queryType", v)]
   | none => []) ++
  [("builder", GoValue.obj [("queryData", GoValue.arr [GoValue.obj
     [("dataSource", GoValue.str "metrics"),
      ("aggregateAttribute", GoValue.obj [("key", GoValue.str "cpu_usage")])]])])]

/-- A document with one widget whose query is queryObjWithType applied to
the given optional queryType. -/
def docWithQueryType (qt : Option GoValue) : GoObj :=
  [("title", GoValue.str "d"),
   ("widgets", GoValue.arr [GoValue.obj
     [("id", GoValue.str "w1"), ("title", GoValue.str "wt"),
      ("query", GoValue.obj (queryObjWithType qt))]])]

/-- The row of the docWithQueryType family. -/
def rowWithQueryType (qt : Option GoValue) : DashboardRow :=
  { uuid := "u1", data := GoValue.obj (docWithQueryType qt) }

/-- The record the rowWithQueryType family produces. -/
def recC10 : UsageRecord :=
  mkUsageRecord "u1" "wt" "w1" "d"

/-- Whether an optional queryType field holds the string builder. -/
def isBuilderType : Option GoValue → Bool
  | some (GoValue.str s) => s == "builder"
  | _ => false

theorem getIdDifferenceGo_eq (newIds : List String) :
    ∀ (l difference differenceMap : List String),
      getIdDifferenceGo newIds l difference differenceMap =
        difference ++ dedupFirstFrom newIds differenceMap l := by
  intro l
  induction l with
  | nil => intro difference differenceMap; simp [getIdDifferenceGo, dedupFirstFrom]
  | cons a l ih =>
    intro difference differenceMap
    by_cases h : a ∉ newIds ∧ a ∉ differenceMap
    · simp only [getIdDifferenceGo, dedupFirstFrom, if_pos h, ih, List.append_assoc,
        List.singleton_append]
    · simp only [getIdDifferenceGo, dedupFirstFrom, if_neg h, ih]

theorem filter_notMem_snoc (f : List String) (seen : List String) (a : String) :
    f.filter (fun x => x ∉ seen ++ [a]) =
      (f.filter (fun x => x ∉ seen)).filter (fun x => x ≠ a) := by
  rw [List.filter_filter]
  apply List.filter_congr
  intro x _
  by_cases hxa : x = a
  · subst hxa; simp
  · by_cases hxs : x ∈ seen
    · simp [hxa, hxs]
    · simp [hxa, hxs]

theorem dedupFirstFrom_eq (newIds : List String) :
    ∀ (l seen : List String),
      dedupFirstFrom newIds seen l =
        dedupFirst ((l.filter (fun x => x ∉ newIds)).filter (fun x => x ∉ seen)) := by
  intro l
  induction l with
  | nil => intro seen; simp [dedupFirstFrom, dedupFirst]
  | cons a l ih =>
    intro seen
    by_cases hn : a ∉ newIds
    · by_cases hs : a ∉ seen
      · have hcond : a ∉ newIds ∧ a ∉ seen := ⟨hn, hs⟩
        have hfa : (List.filter (fun x => decide (x ∉ newIds)) (a :: l)) =
            a :: List.filter (fun x => decide (x ∉ newIds)) l := by
          simp [List.filter_cons, hn]
        have hfb : (List.filter (fun x => decide (x ∉ seen))
            (a :: List.filter (fun x => decide (x ∉ newIds)) l)) =
            a :: List.filter (fun x => decide (x ∉ seen))
              (List.filter (fun x => decide (x ∉ newIds)) l) := by
          simp [List.filter_cons, hs]
        rw [dedupFirstFrom, if_pos hcond, ih, hfa, hfb, dedupFirst,
          filter_notMem_snoc]
      · have hcond : ¬(a ∉ newIds ∧ a ∉ seen) := fun h => hs h.2
        have hfa : (List.filter (fun x => decide (x ∉ newIds)) (a :: l)) =
            a :: List.filter (fun x => decide (x ∉ newIds)) l := by
          simp [List.filter_cons, hn]
        rw [dedupFirstFrom, if_neg hcond, ih, hfa]
        have hs' : a ∈ seen := by
          by_contra hc
          exact hs hc
        simp [List.filter_cons, hs']
    · have hcond : ¬(a ∉ newIds ∧ a ∉ seen) := fun h => hn h.1
      have hn' : a ∈ newIds := by
        by_contra hc
        exact hn hc
      rw [dedupFirstFrom, if_neg hcond, ih]
      simp [List.filter_cons, hn']

theorem getIdDifference_eq_dedupFirst_filter (existingIds newIds : List String) :
    getIdDifference existingIds newIds =
      dedupFirst (existingIds.filter (fun x => x ∉ newIds)) := by
  unfold getIdDifference
  rw [getIdDifferenceGo_eq, dedupFirstFrom_eq]
  simp

theorem mem_dedupFirst : ∀ (l : List String) (x : String), x ∈ dedupFirst l ↔ x ∈ l := by
  intro l
  induction l using dedupFirst.induct with
  | case1 => intro x; simp [dedupFirst]
  | case2 a l ih =>
    intro x
    rw [dedupFirst]
    simp only [List.mem_cons, ih, List.mem_filter]
    by_cases hxa : x = a
    · simp [hxa]
    · simp [hxa]

theorem nodup_dedupFirst : ∀ (l : List String), (dedupFirst l).Nodup := by
  intro l
  induction l using dedupFirst.induct with
  | case1 => simp [dedupFirst]
  | case2 a l ih =>
    rw [dedupFirst]
    refine List.nodup_cons.mpr ⟨?_, ih⟩
    intro hmem
    rw [mem_dedupFirst] at hmem
    have := (List.mem_filter.mp hmem).2
    simp at this

/-- Claim C4: getIdDifference returns exactly the identifiers of
existingIds that do not occur in newIds, each at most once even when
existingIds has duplicates, in order of first occurrence in existingIds
(formalised as equality with first-seen deduplication of the filtered
list); in particular the diff of w1 w2 w3 against w1 w3 is the single
id w2. -/
theorem claim_C4 (existingIds newIds : List String) :
    getIdDifference existingIds newIds =
      dedupFirst (existingIds.filter (fun x => x ∉ newIds)) ∧
    (∀ x, x ∈ getIdDifference existingIds newIds ↔ x ∈ existingIds ∧ x ∉ newIds) ∧
    (getIdDifference existingIds newIds).Nodup ∧
    getIdDifference ["w1", "w2", "w3"] ["w1", "w3"] = ["w2"] := by
  refine ⟨getIdDifference_eq_dedupFirst_filter _ _, ?_, ?_, by decide⟩
  · intro x
    rw [getIdDifference_eq_dedupFirst_filter, mem_dedupFirst, List.mem_filter]
    simp
  · rw [getIdDifference_eq_dedupFirst_filter]
    exact nodup_dedupFirst _

/-- Claim C8: the widget-id diff of any sequence against itself is empty. -/
theorem claim_C8 (a : List String) : getIdDifference a a = [] := by
  rw [getIdDifference_eq_dedupFirst_filter]
  have : a.filter (fun x => x ∉ a) = [] := by
    apply List.filter_eq_nil_iff.mpr
    intro x hx
    simp [hx]
  rw [this, dedupFirst]

/-- Claim C5, as written, fails on the code: a document whose title is the
empty string and whose widgets array is non-empty gets the flag even
though the title is empty. -/
theorem claim_C5_counterexample :
    ¬ (isDashboardWithPanelAndName dataC5 = true ↔
        (∃ t, GoObj.get dataC5 "title" = GoValue.str t ∧ t ≠ "" ∧ t ≠ "Sample Title") ∧
        (∃ ws, GoObj.get dataC5 "widgets" = GoValue.arr ws ∧ ws ≠ [])) := by
  intro h
  obtain ⟨⟨t, ht, hne, _⟩, _⟩ := h.mp (by decide)
  have h0 : GoObj.get dataC5 "title" = GoValue.str "" := rfl
  rw [h0] at ht
  injection ht with h1
  exact hne h1.symm

/-- Claim C5 (amended: the code does not require the title to be
non-empty): the flag is true iff the title field is present as a string
different from the reserved placeholder Sample Title, and the widgets
field is an array with at least one element. -/
theorem claim_C5 (data : GoObj) :
    isDashboardWithPanelAndName data = true ↔
      (∃ t, GoObj.get data "title" = GoValue.str t ∧ t ≠ "Sample Title") ∧
      (∃ ws, GoObj.get data "widgets" = GoValue.arr ws ∧ ws ≠ []) := by
  unfold isDashboardWithPanelAndName
  cases ht : GoObj.get data "title" <;> cases hw : GoObj.get data "widgets" <;>
    simp_all [GoValue.isNotNil, GoValue.asStr, GoValue.asArr, List.length_pos]

/-- Claim C3: when the widget-id diff between stored and new document has
length greater than one, the update path rejects with a bad-request error
distinct from the persistence error classifications and performs no
write; with diff length zero or one the policy check passes and the write
of the new data proceeds. -/
theorem claim_C3 (storedData newData : GoObj) :
    ((getIdDifference (getWidgetIds storedData) (getWidgetIds newData)).length > 1 →
      updateDashboardPolicy storedData newData =
        UpdateOutcome.rejected (badRequest "deleting more than one panel is not supported") ∧
      (badRequest "deleting more than one panel is not supported").typ ≠ ErrorTyp.errorExec ∧
      (badRequest "deleting more than one panel is not supported").typ ≠ ErrorTyp.errorNotFound ∧
      ∀ d, updateDashboardPolicy storedData newData ≠ UpdateOutcome.written d) ∧
    ((getIdDifference (getWidgetIds storedData) (getWidgetIds newData)).length ≤ 1 →
      updateDashboardPolicy storedData newData = UpdateOutcome.written newData) := by
  unfold updateDashboardPolicy
  constructor
  · intro h
    rw [if_pos h]
    refine ⟨rfl, by decide, by decide, ?_⟩
    intro d hc
    exact UpdateOutcome.noConfusion hc
  · intro h
    rw [if_neg (by omega)]

/-- Witness for claim C3 at the spec's concrete inputs: removing two of
three widgets is rejected, while an identical update is written. -/
theorem claim_C3_witness :
    updateDashboardPolicy storedC3 newC3 =
      UpdateOutcome.rejected (badRequest "deleting more than one panel is not supported") ∧
    updateDashboardPolicy newC3 newC3 = UpdateOutcome.written newC3 :=
  ⟨((claim_C3 storedC3 newC3).1 (by decide)).1,
   (claim_C3 newC3 newC3).2 (by decide)⟩

theorem widgetIdStep_eq (widgetIds : List String) (widget : GoValue) :
    widgetIdStep widgetIds widget = widgetIds ++ (widgetIdOf widget).toList := by
  unfold widgetIdStep widgetIdOf
  cases widget.asObj with
  | none => simp
  | some sData =>
    dsimp only
    by_cases h : ((GoObj.get sData "query").isNotNil && (GoObj.get sData "id").isNotNil) = true
    · rw [if_pos h, if_pos h]
      cases (GoObj.get sData "id").asStr <;> simp
    · rw [if_neg h, if_neg h]
      simp

theorem foldl_widgetIdStep (ws : List GoValue) :
    ∀ acc, ws.foldl widgetIdStep acc = acc ++ ws.filterMap widgetIdOf := by
  induction ws with
  | nil => intro acc; simp
  | cons w ws ih =>
    intro acc
    rw [List.foldl_cons, widgetIdStep_eq, ih, List.filterMap_cons]
    cases widgetIdOf w <;> simp

/-- Claim C7: traversal never fails on malformed documents: when the
widgets field is absent, null or not an array, getWidgetIds is empty and
countPanelsInDashboard is the all-zero summary; when it is an array, the
returned ids are the in-order extraction that silently skips widgets that
are not maps or lack id or query. -/
theorem claim_C7 (data : GoObj) :
    ((GoObj.get data "widgets").asArr = none →
      getWidgetIds data = [] ∧
      countPanelsInDashboard data = ⟨0, 0, 0, 0, 0, 0⟩) ∧
    (∀ ws, GoObj.get data "widgets" = GoValue.arr ws →
      getWidgetIds data = ws.filterMap widgetIdOf) := by
  constructor
  · intro h
    constructor
    · unfold getWidgetIds
      rw [h]
      split <;> rfl
    · unfold countPanelsInDashboard
      rw [h]
      split <;> rfl
  · intro ws h
    unfold getWidgetIds
    rw [h]
    simp [GoValue.isNotNil, GoValue.asArr, foldl_widgetIdStep]

/-- Witness for claim C7: a document whose widgets field is a string
yields no ids and the zero summary, and a well-formed widgets array is
extracted in order. -/
theorem claim_C7_witness :
    (getWidgetIds dataC7 = [] ∧
      countPanelsInDashboard dataC7 = ⟨0, 0, 0, 0, 0, 0⟩) ∧
    getWidgetIds storedC3 =
      [widgetWithId "w1", widgetWithId "w2", widgetWithId "w3"].filterMap widgetIdOf :=
  ⟨(claim_C7 dataC7).1 rfl,
   (claim_C7 storedC3).2 [widgetWithId "w1", widgetWithId "w2", widgetWithId "w3"] rfl⟩

theorem mem_of_lookup_eq_some {β : Type} {k : String} {v : β} :
    ∀ {l : List (String × β)}, l.lookup k = some v → (k, v) ∈ l := by
  intro l
  induction l with
  | nil => intro h; simp [List.lookup] at h
  | cons kv l ih =>
    intro h
    obtain ⟨k2, v2⟩ := kv
    rw [List.lookup_cons] at h
    by_cases hk : (k == k2) = true
    · rw [hk] at h
      simp only [Option.some.injEq] at h
      have : k = k2 := by simpa using hk
      subst this
      subst h
      exact List.mem_cons_self _ _
    · rw [Bool.not_eq_true] at hk
      rw [hk] at h
      exact List.mem_cons_of_mem _ (ih h)

theorem jsonPureFields_mem :
    ∀ {fs : GoObj} {k : String} {v : GoValue},
      jsonPureFields fs = true → (k, v) ∈ fs → jsonPure v = true := by
  intro fs
  induction fs with
  | nil => intro k v _ hm; cases hm
  | cons kv fs ih =>
    intro k v h hm
    rw [jsonPureFields, Bool.and_eq_true] at h
    rcases List.mem_cons.mp hm with h1 | h1
    · rw [← h1] at h
      exact h.1
    · exact ih h.2 h1

theorem jsonPureList_mem :
    ∀ {es : List GoValue} {e : GoValue},
      jsonPureList es = true → e ∈ es → jsonPure e = true := by
  intro es
  induction es with
  | nil => intro e _ hm; cases hm
  | cons e2 es ih =>
    intro e h hm
    rw [jsonPureList, Bool.and_eq_true] at h
    rcases List.mem_cons.mp hm with h1 | h1
    · rw [h1]; exact h.1
    · exact ih h.2 h1

theorem jsonPureFields_get {fs : GoObj} (h : jsonPureFields fs = true) (k : String) :
    jsonPure (GoObj.get fs k) = true := by
  unfold GoObj.get
  cases hl : fs.lookup k with
  | none => rfl
  | some v => exact jsonPureFields_mem h (mem_of_lookup_eq_some hl)

theorem jsonPure_asStrMap {v : GoValue} (h : jsonPure v = true) : v.asStrMap = none := by
  cases v <;> simp_all [jsonPure, GoValue.asStrMap]

theorem jsonPure_asObj {v : GoValue} {fs : GoObj} (h : jsonPure v = true)
    (ho : v.asObj = some fs) : jsonPureFields fs = true := by
  cases v <;> simp_all [jsonPure, GoValue.asObj]

theorem jsonPure_asArr {v : GoValue} {es : List GoValue} (h : jsonPure v = true)
    (ha : v.asArr = some es) : jsonPureList es = true := by
  cases v <;> simp_all [jsonPure, GoValue.asArr]

theorem filterItemStep_of_jsonPure (acc : Nat) (item : GoValue)
    (h : jsonPure item = true) : filterItemStep acc item = acc := by
  unfold filterItemStep
  cases ho : item.asObj with
  | none => rfl
  | some itemMap =>
    dsimp only
    have hf : jsonPureFields itemMap = true := jsonPure_asObj h ho
    have hk : jsonPure (GoObj.get itemMap "key") = true := jsonPureFields_get hf "key"
    cases hs : (GoObj.get itemMap "op").asStr with
    | none => rfl
    | some opStr =>
      dsimp only
      by_cases hop : opStr ∈ ["contains", "ncontains", "like", "nlike"]
      · rw [if_pos hop, jsonPure_asStrMap hk]
      · rw [if_neg hop]

theorem foldl_filterItemStep_of_jsonPure :
    ∀ (items : List GoValue) (acc : Nat), jsonPureList items = true →
      items.foldl filterItemStep acc = acc := by
  intro items
  induction items with
  | nil => intro acc _; rfl
  | cons item items ih =>
    intro acc h
    rw [jsonPureList, Bool.and_eq_true] at h
    rw [List.foldl_cons, filterItemStep_of_jsonPure acc item h.1]
    exact ih acc h.2

theorem checkLogPanelAttrContains_jsonPure (data : GoObj)
    (h : jsonPureFields data = true) : checkLogPanelAttrContains data = 0 := by
  unfold checkLogPanelAttrContains
  cases hf : (GoObj.get data "filters").asObj with
  | none => rfl
  | some filters =>
    dsimp only
    have hff : jsonPureFields filters = true :=
      jsonPure_asObj (jsonPureFields_get h "filters") hf
    by_cases hi : (GoObj.get filters "items").isNotNil = true
    · rw [if_pos hi]
      cases ha : (GoObj.get filters "items").asArr with
      | none => rfl
      | some items =>
        exact foldl_filterItemStep_of_jsonPure items 0
          (jsonPure_asArr (jsonPureFields_get hff "items") ha)
    · rw [if_neg hi]

/-- Claim C1 concerns a code bug: on the spec's example document the code
counts the logs panel but reports zero flagged filter items, because the
filter item's key field, produced by json.Unmarshal as a map from string
to interface, never passes the type assertion to a map from string to
string; in general the flagged count is zero on every value json.Unmarshal
can produce. -/
theorem claim_C1 :
    ((countPanelsInDashboard docC1).LogsBasedPanels = 1 ∧
     (countPanelsInDashboard docC1).LogsPanelsWithAttrContainsOp = 0) ∧
    (∀ data : GoObj, jsonPureFields data = true → checkLogPanelAttrContains data = 0) :=
  ⟨⟨rfl, rfl⟩, fun data h => checkLogPanelAttrContains_jsonPure data h⟩

/-- Witness for claim C1 at the example filter map, which is a
json.Unmarshal-producible value with a contains operator on a key other
than body, yet contributes no flagged count. -/
theorem claim_C1_witness :
    jsonPureFields filtersC1 = true ∧ checkLogPanelAttrContains filtersC1 = 0 :=
  ⟨rfl, claim_C1.2 filtersC1 rfl⟩

theorem builderQueryDataStep_ch (acc : PanelCounts) (qd : GoValue) :
    (builderQueryDataStep acc qd).logChQueryCount = acc.logChQueryCount ∧
    (builderQueryDataStep acc qd).traceChQueryCount = acc.traceChQueryCount := by
  unfold builderQueryDataStep
  cases qd.asObj with
  | none => exact ⟨rfl, rfl⟩
  | some data =>
    dsimp only
    split
    · exact ⟨rfl, rfl⟩
    · split
      · exact ⟨rfl, rfl⟩
      · split
        · exact ⟨rfl, rfl⟩
        · exact ⟨rfl, rfl⟩

theorem foldl_builderQueryDataStep_ch :
    ∀ (qds : List GoValue) (acc : PanelCounts),
      (qds.foldl builderQueryDataStep acc).logChQueryCount = acc.logChQueryCount ∧
      (qds.foldl builderQueryDataStep acc).traceChQueryCount = acc.traceChQueryCount := by
  intro qds
  induction qds with
  | nil => intro acc; exact ⟨rfl, rfl⟩
  | cons qd qds ih =>
    intro acc
    rw [List.foldl_cons]
    rcases ih (builderQueryDataStep acc qd) with ⟨h1, h2⟩
    rcases builderQueryDataStep_ch acc qd with ⟨g1, g2⟩
    exact ⟨h1.trans g1, h2.trans g2⟩

theorem widgetStep_ch (inputData : GoObj) (acc : PanelCounts) (w : GoValue) :
    (widgetStep inputData acc w).logChQueryCount =
      (if isClickhouseWidget w && isDashboardWithLogsClickhouseQuery inputData then 1
       else acc.logChQueryCount) ∧
    (widgetStep inputData acc w).traceChQueryCount =
      (if isClickhouseWidget w && isDashboardWithTracesClickhouseQuery inputData then 1
       else acc.traceChQueryCount) := by
  unfold widgetStep
  cases ho : w.asObj with
  | none => simp [isClickhouseWidget, ho]
  | some sData =>
    dsimp only
    by_cases hq : (GoObj.get sData "query").isNotNil = true
    case neg =>
      rw [if_neg hq]
      simp [isClickhouseWidget, ho, hq]
    case pos =>
      rw [if_pos hq]
      cases hqo : (GoObj.get sData "query").asObj with
      | none => simp [isClickhouseWidget, ho, hq, hqo]
      | some query =>
        dsimp only
        by_cases hb : (((GoObj.get query "queryType").asStr == some "builder") &&
            (GoObj.get query "builder").isNotNil) = true
        case pos =>
          rw [if_pos hb]
          have hbe : (GoObj.get query "queryType").asStr = some "builder" := by
            rw [Bool.and_eq_true] at hb
            simpa using hb.1
          have hch : isClickhouseWidget w = false := by
            simp [isClickhouseWidget, ho, hq, hqo, hbe]
          rw [hch]
          simp only [Bool.false_and, Bool.false_eq_true, if_false]
          cases hbo : (GoObj.get query "builder").asObj with
          | none => exact ⟨rfl, rfl⟩
          | some builderData =>
            dsimp only
            by_cases hqd : (GoObj.get builderData "queryData").isNotNil = true
            · rw [if_pos hqd]
              cases hqa : (GoObj.get builderData "queryData").asArr with
              | none => exact ⟨rfl, rfl⟩
              | some qds => exact foldl_builderQueryDataStep_ch qds acc
            · rw [if_neg hqd]
              exact ⟨rfl, rfl⟩
        case neg =>
          rw [if_neg hb]
          by_cases hc : (((GoObj.get query "queryType").asStr == some "clickhouse_sql") &&
              (GoObj.get query "clickhouse_sql").isNotNil) = true
          case pos =>
            rw [if_pos hc]
            have hch : isClickhouseWidget w = true := by
              simp only [isClickhouseWidget, ho, hq, if_pos hq, hqo]
              exact hc
            rw [hch]
            cases hl : isDashboardWithLogsClickhouseQuery inputData <;>
              cases ht : isDashboardWithTracesClickhouseQuery inputData <;>
              simp [hl, ht]
          case neg =>
            rw [if_neg hc]
            have hch : isClickhouseWidget w = false := by
              simp only [isClickhouseWidget, ho, hq, if_pos hq, hqo]
              exact Bool.not_eq_true _ ▸ hc
            rw [hch]
            simp

theorem foldl_widgetStep_ch (inputData : GoObj) :
    ∀ (ws : List GoValue) (acc : PanelCounts),
      (ws.foldl (widgetStep inputData) acc).logChQueryCount =
        (if ws.any isClickhouseWidget && isDashboardWithLogsClickhouseQuery inputData then 1
         else acc.logChQueryCount) ∧
      (ws.foldl (widgetStep inputData) acc).traceChQueryCount =
        (if ws.any isClickhouseWidget && isDashboardWithTracesClickhouseQuery inputData then 1
         else acc.traceChQueryCount) := by
  intro ws
  induction ws with
  | nil => intro acc; simp
  | cons w ws ih =>
    intro acc
    rw [List.foldl_cons]
    rcases ih (widgetStep inputData acc w) with ⟨h1, h2⟩
    rcases widgetStep_ch inputData acc w with ⟨g1, g2⟩
    constructor
    · rw [h1, g1, List.any_cons]
      cases hcw : isClickhouseWidget w <;>
        cases hany : ws.any isClickhouseWidget <;>
        cases hfp : isDashboardWithLogsClickhouseQuery inputData <;>
        simp
    · rw [h2, g2, List.any_cons]
      cases hcw : isClickhouseWidget w <;>
        cases hany : ws.any isClickhouseWidget <;>
        cases hfp : isDashboardWithTracesClickhouseQuery inputData <;>
        simp

theorem countPanels_chQuery (inputData : GoObj) :
    (countPanelsInDashboard inputData).DashboardsWithLogsChQuery =
      (if hasClickhouseWidget inputData && isDashboardWithLogsClickhouseQuery inputData then 1
       else 0) ∧
    (countPanelsInDashboard inputData).DashboardsWithTraceChQuery =
      (if hasClickhouseWidget inputData && isDashboardWithTracesClickhouseQuery inputData then 1
       else 0) := by
  unfold countPanelsInDashboard hasClickhouseWidget
  by_cases hw : (GoObj.get inputData "widgets").isNotNil = true
  · rw [if_pos hw, if_pos hw]
    cases ha : (GoObj.get inputData "widgets").asArr with
    | none => simp
    | some ws =>
      dsimp only
      exact foldl_widgetStep_ch inputData ws ⟨0, 0, 0, 0, 0, 0⟩
  · rw [if_neg hw, if_neg hw]
    simp

/-- Claim C2, as written, fails on the code: a document carrying the
raw-logs fingerprint in its serialization but having no widget in
clickhouse_sql mode does not get the flag. -/
theorem claim_C2_counterexample :
    goStringContains (marshal (GoValue.obj docC2)) "signoz_logs.logs" = true ∧
    (countPanelsInDashboard docC2).DashboardsWithLogsChQuery = 0 := by
  constructor
  · rfl
  · rfl

/-- Claim C2 (amended: the fingerprint must co-occur with at least one
widget whose query is in clickhouse_sql mode): the raw-logs flag is one
exactly when some widget reaches the clickhouse branch and the serialized
document contains a logs fingerprint, and zero otherwise; analogously for
traces; each flag is set at most once per document. -/
theorem claim_C2 (inputData : GoObj) :
    ((countPanelsInDashboard inputData).DashboardsWithLogsChQuery =
      if hasClickhouseWidget inputData && isDashboardWithLogsClickhouseQuery inputData then 1
      else 0) ∧
    ((countPanelsInDashboard inputData).DashboardsWithTraceChQuery =
      if hasClickhouseWidget inputData && isDashboardWithTracesClickhouseQuery inputData then 1
      else 0) ∧
    (countPanelsInDashboard inputData).DashboardsWithLogsChQuery ≤ 1 ∧
    (countPanelsInDashboard inputData).DashboardsWithTraceChQuery ≤ 1 := by
  rcases countPanels_chQuery inputData with ⟨h1, h2⟩
  refine ⟨h1, h2, ?_, ?_⟩
  · rw [h1]; split <;> omega
  · rw [h2]; split <;> omega

theorem insAppendAll_nil (acc : MetricUsageIndex) : insAppendAll [] acc = acc := rfl

theorem insAppendAll_cons (k : String) (v : UsageRecord) (E : List (String × UsageRecord))
    (acc : MetricUsageIndex) :
    insAppendAll ((k, v) :: E) acc = insAppendAll E (insAppend acc k v) := rfl

theorem insAppendAll_append (E1 E2 : List (String × UsageRecord)) (acc : MetricUsageIndex) :
    insAppendAll (E1 ++ E2) acc = insAppendAll E2 (insAppendAll E1 acc) := by
  unfold insAppendAll
  exact List.foldl_append _ _ _ _

theorem insAppend_lookup (k : String) (v : UsageRecord) (m : String) :
    ∀ (acc : MetricUsageIndex),
      (insAppend acc k v).lookup m =
        if m = k then some (((acc.lookup m).getD []) ++ [v]) else acc.lookup m := by
  intro acc
  induction acc with
  | nil =>
    by_cases hm : m = k
    · rw [hm]
      simp [insAppend, List.lookup_cons, List.lookup]
    · simp [insAppend, List.lookup_cons, beq_false_of_ne hm, hm, List.lookup]
  | cons kv rest ih =>
    obtain ⟨k2, vs⟩ := kv
    simp only [insAppend]
    by_cases hk : k2 = k
    · rw [if_pos hk]
      by_cases hm : m = k2
      · have hmk : m = k := hm.trans hk
        simp [List.lookup_cons, hm, hmk, hk]
      · have hmk : ¬ m = k := fun h => hm (h.trans hk.symm)
        simp [List.lookup_cons, beq_false_of_ne hm, hmk]
    · rw [if_neg hk]
      by_cases hm : m = k2
      · have hmk : ¬ m = k := fun h => hk (hm.symm.trans h)
        simp [List.lookup_cons, hm, hmk, hk]
      · simp [List.lookup_cons, beq_false_of_ne hm, ih]

theorem insAppendAll_lookup_getD (E : List (String × UsageRecord)) :
    ∀ (acc : MetricUsageIndex) (m : String),
      ((insAppendAll E acc).lookup m).getD [] =
        ((acc.lookup m).getD []) ++ (E.filter (fun p => p.1 = m)).map (fun p => p.2) := by
  induction E with
  | nil => intro acc m; simp [insAppendAll_nil]
  | cons p E ih =>
    intro acc m
    obtain ⟨k, v⟩ := p
    rw [insAppendAll_cons, ih, insAppend_lookup]
    by_cases hm : m = k
    · subst hm
      simp [List.filter_cons]
    · have hkm : ¬(k = m) := fun h => hm h.symm
      simp [List.filter_cons, hm, hkm]

theorem insAppendAll_lookup_none (E : List (String × UsageRecord)) :
    ∀ (acc : MetricUsageIndex) (m : String),
      ((insAppendAll E acc).lookup m = none ↔
        acc.lookup m = none ∧ E.filter (fun p => p.1 = m) = []) := by
  induction E with
  | nil => intro acc m; simp [insAppendAll_nil]
  | cons p E ih =>
    intro acc m
    obtain ⟨k, v⟩ := p
    rw [insAppendAll_cons, ih, insAppend_lookup]
    by_cases hm : m = k
    · subst hm
      simp [List.filter_cons]
    · have hkm : ¬(k = m) := fun h => hm h.symm
      simp [List.filter_cons, hm, hkm]

theorem mem_insAppendAll_nil (E : List (String × UsageRecord)) (m : String) (r : UsageRecord) :
    r ∈ ((insAppendAll E []).lookup m).getD [] ↔ (m, r) ∈ E := by
  rw [insAppendAll_lookup_getD]
  simp only [List.lookup_nil, Option.getD_none, List.nil_append]
  constructor
  · intro h
    obtain ⟨p, hp, hr⟩ := List.mem_map.mp h
    obtain ⟨hpE, hpm⟩ := List.mem_filter.mp hp
    have h1 : p.1 = m := by simpa using hpm
    have h2 : p = (m, r) := by
      obtain ⟨p1, p2⟩ := p
      simp only at h1 hr
      rw [h1, hr]
    rw [h2] at hpE
    exact hpE
  · intro h
    exact List.mem_map.mpr ⟨(m, r), List.mem_filter.mpr ⟨h, by simp⟩, rfl⟩

theorem foldl_eq_insAppendAll {α : Type} (step : MetricUsageIndex → α → MetricUsageIndex)
    (emit : α → List (String × UsageRecord))
    (h : ∀ result x, step result x = insAppendAll (emit x) result) :
    ∀ (l : List α) (acc : MetricUsageIndex),
      l.foldl step acc = insAppendAll (l.flatMap emit) acc := by
  intro l
  induction l with
  | nil => intro acc; simp [insAppendAll_nil]
  | cons x l ih =>
    intro acc
    rw [List.foldl_cons, h, List.flatMap_cons, insAppendAll_append, ih]

theorem metricNamesLoop_eq (metricNames : List String)
    (uuid widgetTitle widgetID dashTitle key : String) :
    ∀ result, metricNamesLoop metricNames uuid widgetTitle widgetID dashTitle key result =
      insAppendAll
        (metricNameEmissions metricNames (mkUsageRecord uuid widgetTitle widgetID dashTitle) key)
        result := by
  induction metricNames with
  | nil => intro result; rfl
  | cons mn rest ih =>
    intro result
    unfold metricNamesLoop metricNameEmissions at ih ⊢
    rw [List.foldl_cons, List.filterMap_cons]
    by_cases hmn : stringsTrimSpace key = mn
    · simp only [metricNameStep, if_pos hmn, insAppendAll_cons]
      exact ih _
    · simp only [metricNameStep, if_neg hmn]
      exact ih _

theorem queryDataStep_eq (metricNames : List String) (uuid dashTitle widgetTitle widgetID : String)
    (result : MetricUsageIndex) (qd : GoValue) :
    queryDataStep metricNames uuid dashTitle widgetTitle widgetID result qd =
      insAppendAll (qdEmissions metricNames uuid dashTitle widgetTitle widgetID qd) result := by
  unfold queryDataStep qdEmissions
  cases qd.asObj with
  | none => rfl
  | some data =>
    dsimp only
    by_cases hds : (GoObj.get data "dataSource").asStr ≠ some "metrics"
    · rw [if_pos hds, if_pos hds]
      rfl
    · rw [if_neg hds, if_neg hds]
      cases (GoObj.get data "aggregateAttribute").asObj with
      | none => rfl
      | some aggregateAttr =>
        dsimp only
        cases (GoObj.get aggregateAttr "key").asStr with
        | none => rfl
        | some key => exact metricNamesLoop_eq _ _ _ _ _ _ _

theorem queryDataLoop_eq (metricNames : List String) (uuid dashTitle widgetTitle widgetID : String)
    (queryData : List GoValue) (result : MetricUsageIndex) :
    queryDataLoop metricNames uuid dashTitle widgetTitle widgetID queryData result =
      insAppendAll
        (queryData.flatMap (qdEmissions metricNames uuid dashTitle widgetTitle widgetID))
        result := by
  unfold queryDataLoop
  exact foldl_eq_insAppendAll _ _
    (fun r x => queryDataStep_eq metricNames uuid dashTitle widgetTitle widgetID r x)
    queryData result

theorem widgetMetricStep_eq (metricNames : List String) (uuid dashTitle : String)
    (result : MetricUsageIndex) (w : GoValue) :
    widgetMetricStep metricNames uuid dashTitle result w =
      insAppendAll (widgetEmissions metricNames uuid dashTitle w) result := by
  unfold widgetMetricStep widgetEmissions
  cases w with
  | obj widget =>
    try dsimp only [GoValue.asObj, GoValue.asArr]
    cases hQ : GoObj.get widget "query" with
    | obj query =>
      try dsimp only [GoValue.asObj, GoValue.asArr]
      cases hB : GoObj.get query "builder" with
      | obj builder =>
        try dsimp only [GoValue.asObj, GoValue.asArr]
        cases hD : GoObj.get builder "queryData" with
        | arr queryData =>
          try dsimp only [GoValue.asObj, GoValue.asArr]
          exact queryDataLoop_eq _ _ _ _ _ _ _
        | null => rfl
        | str s => rfl
        | num n => rfl
        | bool b => rfl
        | obj fs => rfl
        | strMap fs => rfl
      | null => rfl
      | str s => rfl
      | num n => rfl
      | bool b => rfl
      | arr es => rfl
      | strMap fs => rfl
    | null => rfl
    | str s => rfl
    | num n => rfl
    | bool b => rfl
    | arr es => rfl
    | strMap fs => rfl
  | null => rfl
  | str s => rfl
  | num n => rfl
  | bool b => rfl
  | arr es => rfl
  | strMap fs => rfl

theorem widgetsMetricLoop_eq (metricNames : List String) (uuid dashTitle : String)
    (widgets : List GoValue) (result : MetricUsageIndex) :
    widgetsMetricLoop metricNames uuid dashTitle widgets result =
      insAppendAll (widgets.flatMap (widgetEmissions metricNames uuid dashTitle)) result := by
  unfold widgetsMetricLoop
  exact foldl_eq_insAppendAll _ _
    (fun r x => widgetMetricStep_eq metricNames uuid dashTitle r x) widgets result

theorem dashboardStep_eq (metricNames : List String) (result : MetricUsageIndex)
    (dashboard : DashboardRow) :
    dashboardStep metricNames result dashboard =
      insAppendAll (rowEmissions metricNames dashboard) result := by
  unfold dashboardStep rowEmissions
  cases hO : dashboard.data with
  | obj dashData =>
    try dsimp only [GoValue.asObj, GoValue.asArr]
    cases hW : GoObj.get dashData "widgets" with
    | arr widgets =>
      try dsimp only [GoValue.asObj, GoValue.asArr]
      exact widgetsMetricLoop_eq _ _ _ _ _
    | null => rfl
    | str s => rfl
    | num n => rfl
    | bool b => rfl
    | obj fs => rfl
    | strMap fs => rfl
  | null => rfl
  | str s => rfl
  | num n => rfl
  | bool b => rfl
  | arr es => rfl
  | strMap fs => rfl

theorem GetDashboardsWithMetricNames_eq (dashboards : List DashboardRow)
    (metricNames : List String) :
    GetDashboardsWithMetricNames dashboards metricNames =
      insAppendAll (allEmissions dashboards metricNames) [] := by
  unfold GetDashboardsWithMetricNames allEmissions
  exact foldl_eq_insAppendAll _ _
    (fun r x => dashboardStep_eq metricNames r x) dashboards []

theorem asObj_eq_some {v : GoValue} {fs : GoObj} : v.asObj = some fs ↔ v = GoValue.obj fs := by
  cases v <;> simp [GoValue.asObj]

theorem asArr_eq_some {v : GoValue} {es : List GoValue} :
    v.asArr = some es ↔ v = GoValue.arr es := by
  cases v <;> simp [GoValue.asArr]

theorem asStr_eq_some {v : GoValue} {s : String} : v.asStr = some s ↔ v = GoValue.str s := by
  cases v <;> simp [GoValue.asStr]

theorem mem_metricNameEmissions {metricNames : List String} {rec : UsageRecord} {key m : String}
    {r : UsageRecord} :
    (m, r) ∈ metricNameEmissions metricNames rec key ↔
      stringsTrimSpace key = m ∧ m ∈ metricNames ∧ r = rec := by
  unfold metricNameEmissions
  rw [List.mem_filterMap]
  constructor
  · rintro ⟨m2, hm2, hif⟩
    by_cases h : stringsTrimSpace key = m2
    · rw [if_pos h] at hif
      simp only [Option.some.injEq, Prod.mk.injEq] at hif
      obtain ⟨hm, hr⟩ := hif
      subst hm
      exact ⟨h, hm2, hr.symm⟩
    · rw [if_neg h] at hif
      cases hif
  · rintro ⟨htrim, hmem, hr⟩
    refine ⟨m, hmem, ?_⟩
    rw [if_pos htrim, hr]

theorem mem_qdEmissions {metricNames : List String} {uuid dashTitle widgetTitle widgetID : String}
    {qd : GoValue} {m : String} {r : UsageRecord} :
    (m, r) ∈ qdEmissions metricNames uuid dashTitle widgetTitle widgetID qd ↔
      qdWitness metricNames m qd ∧ r = mkUsageRecord uuid widgetTitle widgetID dashTitle := by
  unfold qdEmissions qdWitness
  cases qd with
  | obj data =>
    dsimp only [GoValue.asObj]
    by_cases hds : (GoObj.get data "dataSource").asStr ≠ some "metrics"
    · rw [if_pos hds]
      have hng : ¬ GoObj.get data "dataSource" = GoValue.str "metrics" := by
        intro h
        exact hds (by rw [h]; rfl)
      simp [hng]
    · rw [if_neg hds]
      rw [not_not] at hds
      have hg : GoObj.get data "dataSource" = GoValue.str "metrics" := asStr_eq_some.mp hds
      cases hA : (GoObj.get data "aggregateAttribute").asObj with
      | none =>
        have hna : ∀ aggAttr : GoObj,
            ¬ GoObj.get data "aggregateAttribute" = GoValue.obj aggAttr := by
          intro aggAttr h
          rw [h] at hA
          simp [GoValue.asObj] at hA
        simp [hg, hna]
      | some aggAttr =>
        have hga : GoObj.get data "aggregateAttribute" = GoValue.obj aggAttr :=
          asObj_eq_some.mp hA
        cases hK : (GoObj.get aggAttr "key").asStr with
        | none =>
          have hnk : ∀ key : String, ¬ GoObj.get aggAttr "key" = GoValue.str key := by
            intro key h
            rw [h] at hK
            simp [GoValue.asStr] at hK
          simp [hK, hg, hga, hnk]
        | some key =>
          have hk : GoObj.get aggAttr "key" = GoValue.str key := asStr_eq_some.mp hK
          simp [hga, hk, hg, GoValue.asStr, mem_metricNameEmissions, and_assoc]
  | null => simp [GoValue.asObj]
  | str s => simp [GoValue.asObj]
  | num n => simp [GoValue.asObj]
  | bool b => simp [GoValue.asObj]
  | arr es => simp [GoValue.asObj]
  | strMap fs => simp [GoValue.asObj]

theorem mem_widgetEmissions {metricNames : List String} {uuid dashTitle : String} {w : GoValue}
    {m : String} {r : UsageRecord} :
    (m, r) ∈ widgetEmissions metricNames uuid dashTitle w ↔
      widgetWitness metricNames uuid dashTitle m r w := by
  unfold widgetEmissions widgetWitness
  cases w with
  | obj widget =>
    try dsimp only
    cases hQ : GoObj.get widget "query" with
    | obj query =>
      try dsimp only
      cases hB : GoObj.get query "builder" with
      | obj builder =>
        try dsimp only
        cases hD : GoObj.get builder "queryData" with
        | arr queryData =>
          try dsimp only
          rw [List.mem_flatMap]
          constructor
          · rintro ⟨qd, hqd, hmem⟩
            obtain ⟨hW, hr⟩ := mem_qdEmissions.mp hmem
            exact ⟨widget, rfl, ⟨query, hQ, builder, hB, queryData, hD, qd, hqd, hW⟩, hr⟩
          · rintro ⟨widget2, hw2, ⟨query2, hq2, builder2, hb2, qds2, hd2, qd, hqd, hW⟩, hr⟩
            injection hw2 with hweq
            subst hweq
            rw [hQ] at hq2
            injection hq2 with hqeq
            subst hqeq
            rw [hB] at hb2
            injection hb2 with hbeq
            subst hbeq
            rw [hD] at hd2
            injection hd2 with hdeq
            subst hdeq
            exact ⟨qd, hqd, mem_qdEmissions.mpr ⟨hW, hr⟩⟩
        | null => simp [hQ, hB, hD]
        | str s => simp [hQ, hB, hD]
        | num n => simp [hQ, hB, hD]
        | bool b => simp [hQ, hB, hD]
        | obj fs => simp [hQ, hB, hD]
        | strMap fs => simp [hQ, hB, hD]
      | null => simp [hQ, hB]
      | str s => simp [hQ, hB]
      | num n => simp [hQ, hB]
      | bool b => simp [hQ, hB]
      | arr es => simp [hQ, hB]
      | strMap fs => simp [hQ, hB]
    | null => simp [hQ]
    | str s => simp [hQ]
    | num n => simp [hQ]
    | bool b => simp [hQ]
    | arr es => simp [hQ]
    | strMap fs => simp [hQ]
  | null => simp
  | str s => simp
  | num n => simp
  | bool b => simp
  | arr es => simp
  | strMap fs => simp

theorem mem_rowEmissions {metricNames : List String} {row : DashboardRow}
    {m : String} {r : UsageRecord} :
    (m, r) ∈ rowEmissions metricNames row ↔ usageWitness metricNames row m r := by
  unfold rowEmissions usageWitness
  cases hO : row.data with
  | obj dashData =>
    try dsimp only
    cases hW : GoObj.get dashData "widgets" with
    | arr widgets =>
      try dsimp only
      rw [List.mem_flatMap]
      constructor
      · rintro ⟨w, hw, hmem⟩
        exact ⟨dashData, rfl, widgets, hW, w, hw, mem_widgetEmissions.mp hmem⟩
      · rintro ⟨dashData2, hd2, widgets2, hw2, w, hw, hwit⟩
        injection hd2 with hdeq
        subst hdeq
        rw [hW] at hw2
        injection hw2 with hweq
        subst hweq
        exact ⟨w, hw, mem_widgetEmissions.mpr hwit⟩
    | null => simp [hO, hW]
    | str s => simp [hO, hW]
    | num n => simp [hO, hW]
    | bool b => simp [hO, hW]
    | obj fs => simp [hO, hW]
    | strMap fs => simp [hO, hW]
  | null => simp [hO]
  | str s => simp [hO]
  | num n => simp [hO]
  | bool b => simp [hO]
  | arr es => simp [hO]
  | strMap fs => simp [hO]

theorem mem_allEmissions {dashboards : List DashboardRow} {metricNames : List String}
    {m : String} {r : UsageRecord} :
    (m, r) ∈ allEmissions dashboards metricNames ↔
      ∃ row ∈ dashboards, usageWitness metricNames row m r := by
  unfold allEmissions
  rw [List.mem_flatMap]
  constructor
  · rintro ⟨row, hrow, hmem⟩
    exact ⟨row, hrow, mem_rowEmissions.mp hmem⟩
  · rintro ⟨row, hrow, hwit⟩
    exact ⟨row, hrow, mem_rowEmissions.mpr hwit⟩

/-- Claim C6: a usage record is listed under a requested metric name
exactly when some row of the collection has a widget with a builder
query-data item whose dataSource is metrics and whose aggregateAttribute
key, after trimming surrounding white space, equals that name; in
particular a key with surrounding white space matches the trimmed
requested name and the record is stored under the requested name. -/
theorem claim_C6 (dashboards : List DashboardRow) (metricNames : List String)
    (m : String) (r : UsageRecord) :
    (r ∈ ((GetDashboardsWithMetricNames dashboards metricNames).lookup m).getD [] ↔
      ∃ row ∈ dashboards, usageWitness metricNames row m r) ∧
    (GetDashboardsWithMetricNames [rowC6] ["cpu_usage"]).lookup "cpu_usage" = some [recC6] := by
  constructor
  · rw [GetDashboardsWithMetricNames_eq, mem_insAppendAll_nil, mem_allEmissions]
  · rfl

/-- Claim C9: a requested name with no matching widget is absent from the
result map rather than mapped to an empty list, and every key present
carries a non-empty record list. -/
theorem claim_C9 (dashboards : List DashboardRow) (metricNames : List String) (m : String) :
    ((GetDashboardsWithMetricNames dashboards metricNames).lookup m = none ↔
      ¬ ∃ row ∈ dashboards, ∃ r, usageWitness metricNames row m r) ∧
    (∀ l, (GetDashboardsWithMetricNames dashboards metricNames).lookup m = some l → l ≠ []) := by
  constructor
  · rw [GetDashboardsWithMetricNames_eq, insAppendAll_lookup_none]
    simp only [List.lookup_nil, true_and]
    rw [List.filter_eq_nil_iff]
    constructor
    · rintro h ⟨row, hrow, r, hw⟩
      have hmem : (m, r) ∈ allEmissions dashboards metricNames :=
        mem_allEmissions.mpr ⟨row, hrow, hw⟩
      have := h (m, r) hmem
      simp at this
    · rintro h p hp hpm
      have hp1 : p.1 = m := by simpa using hpm
      have hmem : (m, p.2) ∈ allEmissions dashboards metricNames := by
        have : p = (m, p.2) := by
          obtain ⟨p1, p2⟩ := p
          simp only at hp1
          rw [hp1]
        rw [this] at hp
        exact hp
      obtain ⟨row, hrow, hw⟩ := mem_allEmissions.mp hmem
      exact h ⟨row, hrow, p.2, hw⟩
  · intro l hl hnil
    subst hnil
    rw [GetDashboardsWithMetricNames_eq] at hl
    have hg := insAppendAll_lookup_getD (allEmissions dashboards metricNames) [] m
    rw [hl] at hg
    simp only [List.lookup_nil, Option.getD_none, Option.getD_some, List.nil_append] at hg
    have hfil : (allEmissions dashboards metricNames).filter (fun p => p.1 = m) = [] := by
      have := List.map_eq_nil_iff.mp hg.symm
      exact this
    have hnone := (insAppendAll_lookup_none (allEmissions dashboards metricNames) [] m).mpr
      ⟨rfl, hfil⟩
    rw [hl] at hnone
    cases hnone

/-- Witness for claim C9: the concrete collection with one matching
widget stores a non-empty list under the requested name. -/
theorem claim_C9_witness : ([recC6] : List UsageRecord) ≠ [] :=
  (claim_C9 [rowC6] ["cpu_usage"] "cpu_usage").2 [recC6] rfl

/-- Claim C10: GetDashboardsWithMetricNames never inspects queryType: the
usage record is produced for every value of the queryType field, absent
included, while countPanelsInDashboard counts the metrics builder item
only when queryType is the string builder. -/
theorem claim_C10 (qt : Option GoValue) :
    (GetDashboardsWithMetricNames [rowWithQueryType qt] ["cpu_usage"]).lookup "cpu_usage" =
      some [recC10] ∧
    (countPanelsInDashboard (docWithQueryType qt)).MetricBasedPanels =
      (if isBuilderType qt then 1 else 0) := by
  cases qt with
  | none => exact ⟨rfl, rfl⟩
  | some v =>
    refine ⟨?_, ?_⟩
    · cases v <;> rfl
    · cases v with
      | str s =>
        by_cases hs : s = "builder"
        · subst hs
          rfl
        · have hbeq : (s == "builder") = false := beq_false_of_ne hs
          simp only [isBuilderType, hbeq, Bool.false_eq_true, if_false]
          simp [countPanelsInDashboard, docWithQueryType, queryObjWithType, widgetStep,
            GoObj.get, List.lookup, GoValue.asObj, GoValue.asArr, GoValue.asStr,
            GoValue.isNotNil, hbeq]
      | null => rfl
      | num n => rfl
      | bool b => rfl
      | arr es => rfl
      | obj fs => rfl
      | strMap fs => rfl
